import Mathlib

/-!
Verification of the portfolio-aggregation core of the orchidlab dashboards.

The repository contains three near-duplicate dashboard scripts.  The
aggregation logic verified here lives in:

* stock_portfolio_dashboard.py — calculate_hpr, format_currency,
  format_percentage, create_summary_table, create_detail_table, and the
  ingestion coercion in main;
* orchidDashboardStock-v2.py — the inline summary / total-row computation;
* orchidDashboardStock.py — the inline summary computation.

Numeric cells are modelled as exact rationals; a possibly-missing (NaN)
value is an Option value, none standing for NaN.  Pandas float division
by a zero denominator produces a non-finite float (NaN or inf) without
raising; such a non-finite result is likewise modelled as none.
-/

attribute [local semireducible] Rat.add Rat.mul Rat.sub Rat.inv

/-- One row of the stock_portfolio_dashboard.py input table, after the
required-columns validation: Portfolio, Broker, Member, Company Name,
Sector, Qty, Value At Cost, Value At Market Price. -/
structure Holding where
  portfolio : String
  broker : String
  member : String
  companyName : String
  sector : String
  qty : ℚ
  valueAtCost : ℚ
  valueAtMarketPrice : ℚ
deriving DecidableEq, Repr

/-- One row of the orchidDashboardStock{,-v2}.py input table. -/
structure VHolding where
  familyMemberName : String
  brokerName : String
  sectorCode : String
  stockCode : String
  quantity : ℚ
  investedAmount : ℚ
  currentValue : ℚ
deriving DecidableEq, Repr

/-- calculate_hpr from stock_portfolio_dashboard.py: returns 0 when the
cost value is 0, otherwise ((current - cost) / cost) * 100. -/
def calculate_hpr (current_value cost_value : ℚ) : ℚ :=
  if cost_value = 0 then 0 else ((current_value - cost_value) / cost_value) * 100

/-- Absolute value of a rational through a sign test on its numerator. -/
def ratAbs (q : ℚ) : ℚ :=
  if q.num < 0 then -q else q

/-- Round-half-even of a rational, the rounding Python string formatting
applies to the exact value of a float.  The fractional part f lies in
[0, 1); it is compared with one half through its numerator and
denominator. -/
def rhe (x : ℚ) : ℤ :=
  let n := Rat.floor x
  let f := x - n
  if f.num * 2 < (f.den : ℤ) then n
  else if (f.den : ℤ) < f.num * 2 then n + 1
  else if n % 2 = 0 then n else n + 1

/-- Decimal digit characters of a natural number, most significant first. -/
def natDigits (n : ℕ) : List Char :=
  Nat.toDigits 10 n

/-- Insert a comma after every third character of a reversed digit list,
modelling the thousands grouping of the Python format spec with a comma. -/
def commaRev : List Char → List Char
  | a :: b :: c :: d :: rest => a :: b :: c :: ',' :: commaRev (d :: rest)
  | l => l

/-- Integer part rendered with fixed comma thousands separators. -/
def groupedNat (n : ℕ) : String :=
  String.mk (commaRev (natDigits n).reverse).reverse

/-- Two-digit zero-padded rendering of a natural number below 100. -/
def pad2 (k : ℕ) : String :=
  if k < 10 then "0" ++ toString k else toString k

/-- Python f-string rendering of a numeric value with a comma thousands
separator and two decimals, as in f-format with comma and .2f. -/
def pyFormatComma2 (q : ℚ) : String :=
  let c := (rhe (ratAbs q * 100)).toNat
  (if q.num < 0 then "-" else "") ++ groupedNat (c / 100) ++ "." ++ pad2 (c % 100)

/-- Python f-string rendering of a numeric value with two decimals and no
thousands separator, as in .2f format. -/
def pyFormat2 (q : ℚ) : String :=
  let c := (rhe (ratAbs q * 100)).toNat
  (if q.num < 0 then "-" else "") ++ toString (c / 100) ++ "." ++ pad2 (c % 100)

/-- format_currency from stock_portfolio_dashboard.py: a NaN value maps to
the rupee zero string, otherwise the rupee sign followed by the
comma-grouped two-decimal rendering. -/
def format_currency (value : Option ℚ) : String :=
  match value with
  | none => "₹0.00"
  | some q => "₹" ++ pyFormatComma2 q

/-- format_percentage from stock_portfolio_dashboard.py: a NaN value maps
to the zero-percent string, otherwise the two-decimal rendering followed
by a percent sign. -/
def format_percentage (value : Option ℚ) : String :=
  match value with
  | none => "0.00%"
  | some q => pyFormat2 q ++ "%"

/-- One raw CSV cell of a numeric column before cleaning: a parseable
number, a missing value, or non-numeric text. -/
inductive RawCell where
  | num (q : ℚ)
  | missing
  | text (s : String)
deriving DecidableEq, Repr

/-- pd.to_numeric with coerce errors: a parseable number stays itself, a
missing or non-numeric cell becomes NaN (none); it never raises. -/
def to_numeric_coerce : RawCell → Option ℚ
  | .num q => some q
  | .missing => none
  | .text _ => none

/-- fillna with 0: NaN becomes 0. -/
def fillna0 : Option ℚ → ℚ
  | none => 0
  | some q => q

/-- Composite cleaning applied in main of stock_portfolio_dashboard.py to
the Value At Cost, Value At Market Price and Qty columns. -/
def clean_numeric (c : RawCell) : ℚ :=
  fillna0 (to_numeric_coerce c)

/-- One raw input row before the numeric cleaning in main. -/
structure RawRow where
  portfolio : String
  broker : String
  member : String
  companyName : String
  sector : String
  rawQty : RawCell
  rawValueAtCost : RawCell
  rawValueAtMarketPrice : RawCell
deriving DecidableEq, Repr

/-- The cleaning step of main: every numeric column of the row passes
through to_numeric with coerce followed by fillna 0 before any
aggregation sees the row. -/
def clean_row (r : RawRow) : Holding :=
  { portfolio := r.portfolio
    broker := r.broker
    member := r.member
    companyName := r.companyName
    sector := r.sector
    qty := clean_numeric r.rawQty
    valueAtCost := clean_numeric r.rawValueAtCost
    valueAtMarketPrice := clean_numeric r.rawValueAtMarketPrice }

/-- Lexicographic code-point comparison of character lists, the order
pandas uses when sorting string group keys. -/
def charListLe : List Char → List Char → Bool
  | [], _ => true
  | _ :: _, [] => false
  | a :: as, b :: bs =>
    if a.toNat < b.toNat then true
    else if b.toNat < a.toNat then false
    else charListLe as bs

/-- Lexicographic comparison of strings by code point. -/
def strLe (a b : String) : Bool :=
  charListLe a.data b.data

/-- Lexicographic comparison of string pairs, modelling the sort order of
a two-column pandas groupby key. -/
def pairLe (a b : String × String) : Bool :=
  if a.1 = b.1 then strLe a.2 b.2 else strLe a.1 b.1

/-- Insertion of an element into a list sorted by the comparison. -/
def insertLe (le : α → α → Bool) (a : α) : List α → List α
  | [] => [a]
  | b :: t => if le a b then a :: b :: t else b :: insertLe le a t

/-- Insertion sort by the given comparison, modelling the sorted group
keys a pandas groupby produces. -/
def sortLe (le : α → α → Bool) (l : List α) : List α :=
  l.foldr (insertLe le) []

/-- The grouping keys of stock_portfolio_dashboard.py: the three branches
of create_summary_table plus the stock key of the design-level enum,
which create_summary_table has no branch for. -/
inductive GroupKey where
  | member
  | sector
  | broker
  | stock
deriving DecidableEq, Repr

/-- The two-column groupby key of create_summary_table: the Portfolio
column paired with the selected grouping column.  create_summary_table
has no branch for the stock key; this function extends the mapping there
with the Company Name column only so that statements can mention it, and
the corresponding summary stays undefined (none). -/
def groupPairOf : GroupKey → Holding → String × String
  | .member, h => (h.portfolio, h.member)
  | .sector, h => (h.portfolio, h.sector)
  | .broker, h => (h.portfolio, h.broker)
  | .stock, h => (h.portfolio, h.companyName)

/-- One row of the summary frame of create_summary_table before display
renaming: the groupby key, the summed Value At Cost, the summed Value At
Market Price, and the HPR column computed by calculate_hpr. -/
structure SRow where
  key : String × String
  valueAtCost : ℚ
  valueAtMarketPrice : ℚ
  hpr : ℚ
deriving DecidableEq, Repr

/-- Sum of the Value At Cost column. -/
def sumCost (hs : List Holding) : ℚ :=
  (hs.map Holding.valueAtCost).sum

/-- Sum of the Value At Market Price column. -/
def sumMarket (hs : List Holding) : ℚ :=
  (hs.map Holding.valueAtMarketPrice).sum

/-- The sorted, duplicate-free list of groupby keys of the frame, as a
pandas groupby produces them. -/
def groupKeys (keyOf : Holding → String × String) (hs : List Holding) : List (String × String) :=
  (sortLe pairLe (hs.map keyOf)).dedup

/-- One aggregated group row: the sums of the two value columns over the
holdings whose key matches, and the HPR computed on those sums. -/
def mkSRow (keyOf : Holding → String × String) (hs : List Holding)
    (k : String × String) : SRow :=
  let grp := hs.filter (fun h => keyOf h = k)
  { key := k
    valueAtCost := sumCost grp
    valueAtMarketPrice := sumMarket grp
    hpr := calculate_hpr (sumMarket grp) (sumCost grp) }

/-- The groupby-aggregate-HPR pipeline of create_summary_table for one
key selector: group rows in sorted key order, each carrying the group
sums and the HPR of those sums. -/
def summaryRows (keyOf : Holding → String × String) (hs : List Holding) : List SRow :=
  (groupKeys keyOf hs).map (mkSRow keyOf hs)

/-- create_summary_table from stock_portfolio_dashboard.py.  The three
if and elif branches group by Portfolio paired with Member, Sector or
Broker; any other key leaves the summary variable unbound, so the result
is undefined there (none models the NameError). -/
def create_summary_table (group_by : GroupKey) (df : List Holding) : Option (List SRow) :=
  match group_by with
  | .member => some (summaryRows (fun h => (h.portfolio, h.member)) df)
  | .sector => some (summaryRows (fun h => (h.portfolio, h.sector)) df)
  | .broker => some (summaryRows (fun h => (h.portfolio, h.broker)) df)
  | .stock => none

/-- create_detail_table from stock_portfolio_dashboard.py: a copy of the
input frame with one added HPR column computed row-wise by
calculate_hpr.  No row is dropped, added or reordered. -/
def create_detail_table (df : List Holding) : List (Holding × ℚ) :=
  df.map (fun h => (h, calculate_hpr h.valueAtMarketPrice h.valueAtCost))

/-- Portfolio Statistics total of main in stock_portfolio_dashboard.py:
calculate_hpr applied to the total sums of the filtered frame. -/
def total_hpr (df : List Holding) : ℚ :=
  calculate_hpr (sumMarket df) (sumCost df)

/-! Model of the inline summary of orchidDashboardStock-v2.py (and the
summary of orchidDashboardStock.py, which computes the same unguarded
return expression and appends no total row). -/

/-- The grouping keys the orchidDashboard scripts offer: the sort_options
of the selectbox. -/
inductive VKey where
  | family
  | sector
  | broker
  | stock
deriving DecidableEq, Repr

/-- Column selected by each key. -/
def vKeyOf : VKey → VHolding → String
  | .family, h => h.familyMemberName
  | .sector, h => h.sectorCode
  | .broker, h => h.brokerName
  | .stock, h => h.stockCode

/-- The unguarded pandas return expression of orchidDashboardStock-v2.py
line 94 and line 104 (and orchidDashboardStock.py line 93):
((current - invested) / invested) * 100.  A zero invested sum makes the
float division produce a non-finite value (NaN for 0/0, signed infinity
otherwise) without raising; none models that non-finite outcome. -/
def v2_return (invested current : ℚ) : Option ℚ :=
  if invested = 0 then none else some ((current - invested) / invested * 100)

/-- One row of the v2 summary: group key (or the literal Total), the
summed invested amount, the summed current value, and the return
percentage column. -/
structure VRow where
  key : String
  investedAmount : ℚ
  currentValue : ℚ
  ret : Option ℚ
deriving DecidableEq, Repr

/-- Sum of the invested amount column. -/
def sumInvested (hs : List VHolding) : ℚ :=
  (hs.map VHolding.investedAmount).sum

/-- Sum of the current value column. -/
def sumCurrent (hs : List VHolding) : ℚ :=
  (hs.map VHolding.currentValue).sum

/-- The sorted, duplicate-free group keys of the v2 groupby. -/
def vGroupKeys (keyOf : VHolding → String) (hs : List VHolding) : List String :=
  (sortLe strLe (hs.map keyOf)).dedup

/-- One aggregated v2 group row. -/
def mkVRow (keyOf : VHolding → String) (hs : List VHolding) (k : String) : VRow :=
  let grp := hs.filter (fun h => keyOf h = k)
  { key := k
    investedAmount := sumInvested grp
    currentValue := sumCurrent grp
    ret := v2_return (sumInvested grp) (sumCurrent grp) }

/-- The groupby-aggregate rows of the v2 summary before the total row is
appended. -/
def v2_groupRows (k : VKey) (hs : List VHolding) : List VRow :=
  (vGroupKeys (vKeyOf k) hs).map (mkVRow (vKeyOf k) hs)

/-- The synthetic total row of orchidDashboardStock-v2.py lines 100-104:
key Total, sums over the whole filtered set, and the same unguarded
return expression applied to those sums. -/
def v2_total_row (hs : List VHolding) : VRow :=
  { key := "Total"
    investedAmount := sumInvested hs
    currentValue := sumCurrent hs
    ret := v2_return (sumInvested hs) (sumCurrent hs) }

/-- The summary of orchidDashboardStock-v2.py: the group rows followed by
the single appended total row (pd.concat at line 105). -/
def v2_summary (k : VKey) (hs : List VHolding) : List VRow :=
  v2_groupRows k hs ++ [v2_total_row hs]

/-- The summary of orchidDashboardStock.py line 86-93: group rows with
the same unguarded return expression and no total row. -/
def v1_summary (k : VKey) (hs : List VHolding) : List VRow :=
  v2_groupRows k hs

/-! State-passing model for the frame claim: the caller's frame is the
only shared state the two table builders can reach; each builder reads
it, writes only to fresh local frames (df.copy, groupby results), and
returns it untouched alongside its result. -/

/-- The caller-owned filtered frame passed to the table builders. -/
structure DfState where
  df : List Holding
deriving DecidableEq, Repr

/-- Statement-level model of create_detail_table: detail is a copy of the
frame, the HPR column is written to that copy only, and the caller's
frame comes back as it went in. -/
def create_detail_table_run (st : DfState) : DfState × List (Holding × ℚ) :=
  let detail := st.df
  let detail := detail.map (fun h => (h, calculate_hpr h.valueAtMarketPrice h.valueAtCost))
  (st, detail)

/-- Statement-level model of create_summary_table: the groupby result is
a fresh frame, the HPR column is written to that fresh frame only, and
the caller's frame comes back as it went in. -/
def create_summary_table_run (group_by : GroupKey) (st : DfState) :
    DfState × Option (List SRow) :=
  let summary := create_summary_table group_by st.df
  (st, summary)

/-! Concrete inputs used by witnesses and counterexamples. -/

/-- Two holdings of one portfolio owned by different members, brokers and
sectors, with invested amounts 10 and 20 and current values 11 and 22. -/
def exHoldingA : Holding :=
  ⟨"P", "B1", "A", "C1", "Tech", 1, 10, 11⟩

/-- Second example holding. -/
def exHoldingB : Holding :=
  ⟨"P", "B2", "B", "C2", "Fin", 1, 20, 22⟩

/-- A holding with zero invested amount and zero current value. -/
def exZeroHolding : Holding :=
  ⟨"P", "B1", "A", "C1", "Tech", 1, 0, 0⟩

/-- A v2 holding with zero invested amount and zero current value. -/
def exVZeroHolding : VHolding :=
  ⟨"Anna", "Zerodha", "Steel", "TATA", 1, 0, 0⟩

/-- The summary row create_summary_table produces for exHoldingA alone
when grouping by member. -/
def exRowA : SRow :=
  ⟨("P", "A"), 10, 11, 10⟩

/-! Supporting lemmas about the sorted-key grouping pipeline. -/

theorem mem_insertLe (le : α → α → Bool) (a x : α) (l : List α) :
    x ∈ insertLe le a l ↔ x = a ∨ x ∈ l := by
  induction l with
  | nil => simp [insertLe]
  | cons b t ih =>
    simp only [insertLe]
    split
    · simp [List.mem_cons]
    · simp only [List.mem_cons, ih]
      tauto

theorem mem_sortLe (le : α → α → Bool) (x : α) (l : List α) :
    x ∈ sortLe le l ↔ x ∈ l := by
  induction l with
  | nil => simp [sortLe]
  | cons b t ih =>
    show x ∈ insertLe le b (sortLe le t) ↔ _
    rw [mem_insertLe]
    simp [ih]

theorem mem_groupKeys {f : Holding → String × String} {hs : List Holding}
    {k : String × String} : k ∈ groupKeys f hs ↔ ∃ h ∈ hs, f h = k := by
  simp [groupKeys, List.mem_dedup, mem_sortLe, List.mem_map]

theorem nodup_groupKeys (f : Holding → String × String) (hs : List Holding) :
    (groupKeys f hs).Nodup :=
  List.nodup_dedup _

theorem mem_summaryRows {f : Holding → String × String} {hs : List Holding}
    {r : SRow} (h : r ∈ summaryRows f hs) :
    ∃ k ∈ groupKeys f hs, r = mkSRow f hs k := by
  obtain ⟨k, hk, he⟩ := List.mem_map.mp h
  exact ⟨k, hk, he.symm⟩

theorem summaryRows_map_key (f : Holding → String × String) (hs : List Holding) :
    (summaryRows f hs).map SRow.key = groupKeys f hs := by
  unfold summaryRows
  rw [List.map_map]
  exact List.map_id _

theorem hpr_of_mem_summaryRows {f : Holding → String × String} {hs : List Holding}
    {r : SRow} (h : r ∈ summaryRows f hs) :
    r.hpr = calculate_hpr r.valueAtMarketPrice r.valueAtCost := by
  obtain ⟨k, _, rfl⟩ := mem_summaryRows h
  rfl

theorem countP_eq_one_of_nodup_mem [DecidableEq α] {l : List α} {x : α}
    (hn : l.Nodup) (hm : x ∈ l) :
    l.countP (fun p => decide (p = x)) = 1 := by
  induction l with
  | nil => cases hm
  | cons a t ih =>
    rw [List.countP_cons]
    rcases List.mem_cons.mp hm with rfl | hxt
    · have hnt : x ∉ t := (List.nodup_cons.mp hn).1
      have : t.countP (fun p => decide (p = x)) = 0 := by
        rw [List.countP_eq_zero]
        intro a ha
        simp only [decide_eq_true_eq]
        exact fun hax => hnt (hax ▸ ha)
      simp [this]
    · have hax : a ≠ x := by
        intro h
        exact (List.nodup_cons.mp hn).1 (h ▸ hxt)
      rw [ih (List.nodup_cons.mp hn).2 hxt]
      simp [hax]

/-- The summary row create_summary_table produces for exHoldingB alone
when grouping by member. -/
def exRowB : SRow :=
  ⟨("P", "B"), 20, 22, 10⟩

/-- The summary row create_summary_table produces for exZeroHolding when
grouping by member. -/
def exZeroRow : SRow :=
  ⟨("P", "A"), 0, 0, 0⟩

theorem rows_eq_of_create (k : GroupKey) (hs : List Holding) (rows : List SRow)
    (h : create_summary_table k hs = some rows) :
    rows = summaryRows (groupPairOf k) hs := by
  cases k
  case member => exact (Option.some.inj h).symm
  case sector => exact (Option.some.inj h).symm
  case broker => exact (Option.some.inj h).symm
  case stock => exact Option.noConfusion h

/-- Claim C4: for every group with positive summed invested amount
produced by create_summary_table, the group's return percentage equals
(sum(current value) - sum(invested amount)) / sum(invested amount) * 100,
and for every single holding with positive invested amount the detail
return percentage equals (current - invested) / invested * 100. -/
theorem c4_return_formula (k : GroupKey) (hs : List Holding) (rows : List SRow)
    (hsum : create_summary_table k hs = some rows) :
    (∀ r ∈ rows, 0 < r.valueAtCost →
        r.hpr = (r.valueAtMarketPrice - r.valueAtCost) / r.valueAtCost * 100)
    ∧ (∀ d ∈ create_detail_table hs, 0 < d.1.valueAtCost →
        d.2 = (d.1.valueAtMarketPrice - d.1.valueAtCost) / d.1.valueAtCost * 100) := by
  have hrows := rows_eq_of_create k hs rows hsum
  subst hrows
  constructor
  · intro r hr hpos
    rw [hpr_of_mem_summaryRows hr]
    simp [calculate_hpr, hpos.ne']
  · intro d hd hpos
    obtain ⟨h, _, rfl⟩ := List.mem_map.mp hd
    simp only at hpos ⊢
    simp [calculate_hpr, hpos.ne']

/-- Witness for C4: on the two concrete example holdings grouped by
member, the first summary row has positive invested sum 10 and its HPR
is exactly (11 - 10) / 10 * 100 = 10. -/
theorem c4_witness :
    create_summary_table GroupKey.member [exHoldingA, exHoldingB] = some [exRowA, exRowB]
    ∧ exRowA ∈ [exRowA, exRowB]
    ∧ 0 < exRowA.valueAtCost
    ∧ exRowA.hpr = (exRowA.valueAtMarketPrice - exRowA.valueAtCost) / exRowA.valueAtCost * 100 :=
  ⟨by decide, by decide, by decide,
    (c4_return_formula GroupKey.member [exHoldingA, exHoldingB] [exRowA, exRowB]
      (by decide)).1 exRowA (by decide) (by decide)⟩

/-- Claim C1 (amended): in stock_portfolio_dashboard.py a zero summed
invested amount yields the sentinel return 0 — calculate_hpr guards the
division — uniformly in summary rows, detail rows and the total
statistics; the orchidDashboard scripts divide without a guard and
produce a non-finite value instead of the sentinel (see the
counterexample), though no exception is raised either way. -/
theorem c1_zero_cost_sentinel (k : GroupKey) (hs : List Holding) (rows : List SRow)
    (hsum : create_summary_table k hs = some rows) :
    (∀ r ∈ rows, r.valueAtCost = 0 → r.hpr = 0)
    ∧ (∀ d ∈ create_detail_table hs, d.1.valueAtCost = 0 → d.2 = 0)
    ∧ (sumCost hs = 0 → total_hpr hs = 0) := by
  have hrows := rows_eq_of_create k hs rows hsum
  subst hrows
  refine ⟨?_, ?_, ?_⟩
  · intro r hr hzero
    rw [hpr_of_mem_summaryRows hr]
    simp [calculate_hpr, hzero]
  · intro d hd hzero
    obtain ⟨h, _, rfl⟩ := List.mem_map.mp hd
    simp only at hzero ⊢
    simp [calculate_hpr, hzero]
  · intro hzero
    simp [total_hpr, calculate_hpr, hzero]

/-- Witness for C1: the all-zero concrete holding has zero invested sum
and the total statistics return is the sentinel 0. -/
theorem c1_witness :
    create_summary_table GroupKey.member [exZeroHolding] = some [exZeroRow]
    ∧ sumCost [exZeroHolding] = 0
    ∧ total_hpr [exZeroHolding] = 0 :=
  ⟨by decide, by decide,
    (c1_zero_cost_sentinel GroupKey.member [exZeroHolding] [exZeroRow] (by decide)).2.2
      (by decide)⟩

/-- Counterexample for C1 as stated: in the orchidDashboardStock-v2.py
summary — one of the claim's cited sources — a group whose invested sum
is zero gets a non-finite return (NaN from the unguarded 0/0 float
division, modelled as none), not the documented sentinel 0; the appended
total row shows the same non-finite value. -/
theorem c1_counterexample :
    (v2_summary VKey.sector [exVZeroHolding]).map VRow.ret = [none, none]
    ∧ (none : Option ℚ) ≠ some 0 :=
  ⟨by decide, by decide⟩

/-- Claim C5: each summary row's invested and current sums are exactly
the sums over the holdings of that row's group, and every input holding
is counted in exactly one group row. -/
theorem c5_group_sums (k : GroupKey) (hs : List Holding) (rows : List SRow)
    (hsum : create_summary_table k hs = some rows) :
    (∀ r ∈ rows,
        r.valueAtCost = sumCost (hs.filter (fun h => groupPairOf k h = r.key))
        ∧ r.valueAtMarketPrice = sumMarket (hs.filter (fun h => groupPairOf k h = r.key)))
    ∧ (∀ h ∈ hs, rows.countP (fun r => decide (r.key = groupPairOf k h)) = 1) := by
  have hrows := rows_eq_of_create k hs rows hsum
  subst hrows
  constructor
  · intro r hr
    obtain ⟨kk, hk, rfl⟩ := mem_summaryRows hr
    exact ⟨rfl, rfl⟩
  · intro h hh
    have h1 : (summaryRows (groupPairOf k) hs).countP
          (fun r => decide (r.key = groupPairOf k h))
        = (groupKeys (groupPairOf k) hs).countP
          (fun p => decide (p = groupPairOf k h)) := by
      unfold summaryRows
      rw [List.countP_map]
      rfl
    rw [h1]
    exact countP_eq_one_of_nodup_mem (nodup_groupKeys _ _)
      (mem_groupKeys.mpr ⟨h, hh, rfl⟩)

/-- Witness for C5: on the two concrete example holdings grouped by
member, the first row's invested sum is the sum over its group's filter,
and the first holding is counted in exactly one row. -/
theorem c5_witness :
    create_summary_table GroupKey.member [exHoldingA, exHoldingB] = some [exRowA, exRowB]
    ∧ exRowA.valueAtCost
        = sumCost ([exHoldingA, exHoldingB].filter
            (fun h => groupPairOf GroupKey.member h = exRowA.key))
    ∧ [exRowA, exRowB].countP
        (fun r => decide (r.key = groupPairOf GroupKey.member exHoldingA)) = 1 :=
  ⟨by decide,
    ((c5_group_sums GroupKey.member [exHoldingA, exHoldingB] [exRowA, exRowB]
        (by decide)).1 exRowA (by decide)).1,
    (c5_group_sums GroupKey.member [exHoldingA, exHoldingB] [exRowA, exRowB]
        (by decide)).2 exHoldingA (by decide)⟩

/-- Claim C2 (amended): in orchidDashboardStock-v2.py the summary is the
group rows followed by exactly one synthetic total row, always last,
whose invested and current sums are the sums over the whole filtered set
for every grouping key, with the same unguarded return expression as the
group rows; create_summary_table of stock_portfolio_dashboard.py appends
no total row — every row of its summary is a group row keyed by some
holding (its totals are shown as separate statistics, not a row). -/
theorem c2_total_row (vk : VKey) (vhs : List VHolding) :
    (v2_summary vk vhs).getLast? = some (v2_total_row vhs)
    ∧ (v2_summary vk vhs).dropLast = v2_groupRows vk vhs
    ∧ (v2_total_row vhs).investedAmount = sumInvested vhs
    ∧ (v2_total_row vhs).currentValue = sumCurrent vhs
    ∧ (v2_total_row vhs).ret = v2_return (sumInvested vhs) (sumCurrent vhs)
    ∧ ∀ (gk : GroupKey) (dfh : List Holding) (rows : List SRow),
        create_summary_table gk dfh = some rows →
        ∀ r ∈ rows, ∃ h ∈ dfh, groupPairOf gk h = r.key := by
  refine ⟨?_, ?_, rfl, rfl, rfl, ?_⟩
  · exact List.getLast?_concat _
  · exact List.dropLast_concat ..
  · intro gk dfh rows hsum r hr
    have hrows := rows_eq_of_create gk dfh rows hsum
    subst hrows
    obtain ⟨kk, hk, rfl⟩ := mem_summaryRows hr
    exact mem_groupKeys.mp hk

/-- Witness for C2: concrete instantiation of the amended claim — the
total row is last for the concrete v2 holding set, and on the concrete
create_summary_table run the single row is keyed by the input holding. -/
theorem c2_witness :
    (v2_summary VKey.sector [exVZeroHolding]).getLast? = some (v2_total_row [exVZeroHolding])
    ∧ create_summary_table GroupKey.member [exHoldingA] = some [exRowA]
    ∧ ∃ h ∈ [exHoldingA], groupPairOf GroupKey.member h = exRowA.key :=
  ⟨(c2_total_row VKey.sector [exVZeroHolding]).1, by decide,
    (c2_total_row VKey.sector [exVZeroHolding]).2.2.2.2.2 GroupKey.member
      [exHoldingA] [exRowA] (by decide) exRowA (by decide)⟩

/-- Counterexample for C2 as stated: for the concrete two-holding set
grouped by member, create_summary_table — one of the claim's cited
summarize implementations — returns rows with invested sums 10 and 20
while the full-set invested sum is 30, so no row (in particular not the
last) is a total row carrying the full-set sums. -/
theorem c2_counterexample :
    ((create_summary_table GroupKey.member [exHoldingA, exHoldingB]).getD []).map
        SRow.valueAtCost = [10, 20]
    ∧ sumCost [exHoldingA, exHoldingB] = 30
    ∧ (10 : ℚ) ≠ 30 ∧ (20 : ℚ) ≠ 30 :=
  ⟨by decide, by decide, by decide, by decide⟩

/-- Claim C3 (amended): create_summary_table is defined for the member,
sector and broker keys — the only keys its caller offers — but reaches
no branch for the stock key of the design-level enum, leaving the result
undefined there; grouping by stock code is available in the
orchidDashboard scripts' summaries, which are total over all four keys. -/
theorem c3_defined_keys (hs : List Holding) (vhs : List VHolding) :
    (create_summary_table GroupKey.member hs).isSome = true
    ∧ (create_summary_table GroupKey.sector hs).isSome = true
    ∧ (create_summary_table GroupKey.broker hs).isSome = true
    ∧ create_summary_table GroupKey.stock hs = none
    ∧ v2_summary VKey.stock vhs = v2_groupRows VKey.stock vhs ++ [v2_total_row vhs] :=
  ⟨rfl, rfl, rfl, rfl, rfl⟩

/-- Counterexample for C3 as stated: at the concrete one-holding input,
the stock grouping key makes create_summary_table reach the fall-through
where its summary variable is never bound (a NameError in the source),
so summarize is not defined for every key of the enum. -/
theorem c3_counterexample :
    create_summary_table GroupKey.stock [exHoldingA] = none :=
  rfl

/-- Claim C6: format_currency on 1234.5 (the rational 2469/2) yields the
rupee sign followed by the string 1,234.50 — two decimals with a fixed
comma thousands separator — format_percentage on -3.456 (the rational
-432/125) yields exactly -3.46 percent, and formatting the same numeric
value twice yields an identical string. -/
theorem c6_format_values :
    format_currency (some (mkRat 2469 2)) = "₹" ++ "1,234.50"
    ∧ format_percentage (some (mkRat (-432) 125)) = "-3.46%"
    ∧ ∀ v : Option ℚ,
        format_currency v = format_currency v
        ∧ format_percentage v = format_percentage v :=
  ⟨by decide, by decide, fun v => ⟨rfl, rfl⟩⟩

/-- Claim C7: non-numeric or missing invested amount, current value and
quantity cells are coerced to 0 by the ingestion cleaning before any
aggregation sees the row; the cleaning is a total function — it never
raises and never propagates an error. -/
theorem c7_ingestion_coercion :
    (∀ r : RawRow,
        (clean_row r).valueAtCost = clean_numeric r.rawValueAtCost
        ∧ (clean_row r).valueAtMarketPrice = clean_numeric r.rawValueAtMarketPrice
        ∧ (clean_row r).qty = clean_numeric r.rawQty)
    ∧ (∀ s : String, clean_numeric (RawCell.text s) = 0)
    ∧ clean_numeric RawCell.missing = 0
    ∧ (∀ q : ℚ, clean_numeric (RawCell.num q) = q) :=
  ⟨fun _ => ⟨rfl, rfl, rfl⟩, fun _ => rfl, rfl, fun _ => rfl⟩

/-- Claim C8: create_detail_table returns one row per input holding, in
exactly the caller's order with all original fields intact, and the only
added column is the computed return percentage. -/
theorem c8_detail_order (hs : List Holding) :
    (create_detail_table hs).map Prod.fst = hs
    ∧ (create_detail_table hs).length = hs.length
    ∧ ∀ d ∈ create_detail_table hs,
        d.2 = calculate_hpr d.1.valueAtMarketPrice d.1.valueAtCost := by
  refine ⟨?_, ?_, ?_⟩
  · unfold create_detail_table
    rw [List.map_map]
    exact List.map_id _
  · simp [create_detail_table]
  · intro d hd
    obtain ⟨h, _, rfl⟩ := List.mem_map.mp hd
    rfl

/-- Witness for C8: the concrete detail row of the one-holding input is
the holding itself with its computed HPR 10. -/
theorem c8_witness :
    (exHoldingA, (10 : ℚ)) ∈ create_detail_table [exHoldingA]
    ∧ (10 : ℚ) = calculate_hpr exHoldingA.valueAtMarketPrice exHoldingA.valueAtCost :=
  ⟨by decide, (c8_detail_order [exHoldingA]).2.2 (exHoldingA, (10 : ℚ)) (by decide)⟩

/-- Claim C9: the two table builders leave the caller's frame unchanged —
every field of every input row is identical before and after — and their
results depend on nothing but that frame; both are pure functions with no
side channel, as the state-passing model makes explicit. -/
theorem c9_no_mutation (st : DfState) (k : GroupKey) :
    (create_summary_table_run k st).1 = st
    ∧ (create_detail_table_run st).1 = st
    ∧ (create_summary_table_run k st).2 = create_summary_table k st.df
    ∧ (create_detail_table_run st).2 = create_detail_table st.df :=
  ⟨rfl, rfl, rfl, rfl⟩

/-- Claim C10: on a missing (NaN) input format_currency returns exactly
the rupee zero string and format_percentage returns exactly the zero
percent string; both functions are total over numeric-or-missing inputs
and never raise. -/
theorem c10_format_nan :
    format_currency none = "₹0.00" ∧ format_percentage none = "0.00%" :=
  ⟨rfl, rfl⟩
